import Mathlib

/-!
# A shallow embedding of the `linux-networkspeed-exporter` sampling core

This file models `main.go` of the repository: the sampling loop
`collectNetworkSpeeds`, the bounded sample store with its eviction routine
`cleanupOldInterfaces`, and the HTTP-side allowlist check `isIPAllowed`.

Modelling conventions:
* Go `uint64` counters are natural numbers together with explicit reduction
  modulo `2 ^ 64` where the code performs `uint64` arithmetic (`u64sub`).
* Go `time.Time` values are integers counting nanoseconds, matching the
  nanosecond resolution of `time.Time`; `time.Duration` comparisons are
  integer comparisons on nanoseconds.  `(now.Sub(t)).Seconds()` becomes the
  exact rational `elapsedSec t now`; the float `timeDiff > 0` test of the
  code is modelled by the equivalent integer test `t < now`
  (`elapsedSec_pos` proves the equivalence).
* Published gauge values are exact rationals; the code publishes `float64`
  values, so equalities hold "within floating-point tolerance" as the spec
  puts it.
* The process-wide map `prevStats.stats` is an association list whose list
  order stands for the (unspecified, randomized) Go map iteration order.
* External collaborators (`net.InterfaceByName`, reading
  `/sys/class/net/<iface>/ifalias`, `/proc/net/dev`) are parameters of the
  model (`Env`, the `snapshot` argument of `cycle`).
* String manipulation mirrors the Go standard library calls made by the
  code (`strings.Fields`, `strings.TrimSuffix(s, ":")`, `strings.Split`,
  `strings.TrimSpace`, `fmt.Sscanf(s, "%d", ...)`, `net.SplitHostPort`),
  implemented here by structural recursion on character lists.
-/

namespace NetSpeedExporter

/-! ## Constants (main.go lines 20-26) -/

/-- `bytesToBits = 8` (main.go line 21). -/
def bytesToBits : Nat := 8

/-- `maxInterfaces = 1000` (main.go line 23): maximum number of tracked interfaces. -/
def maxInterfaces : Nat := 1000

/-- `cleanupInterval = 5 * time.Minute` (main.go line 25), in nanoseconds. -/
def cleanupIntervalNs : Int := 5 * 60 * 1000000000

/-- Nanoseconds per second, the scale of `time.Duration.Seconds()`. -/
def nanosPerSecond : Int := 1000000000

/-- Seconds elapsed from time `t1` to time `t2`, as an exact rational:
`now.Sub(prev.time).Seconds()` of main.go line 208. -/
def elapsedSec (t1 t2 : Int) : ℚ := ((t2 - t1 : Int) : ℚ) / (nanosPerSecond : ℚ)

/-! ## uint64 arithmetic -/

/-- The modulus of Go's `uint64`. -/
def U64 : Nat := 2 ^ 64

/-- Go `uint64` subtraction `a - b`: subtraction modulo `2 ^ 64`.
This is the arithmetic performed by `rxBytes-prev.rxBytes` on main.go
lines 211 and 218 before the `float64` conversion. -/
def u64sub (a b : Nat) : Nat := (a % U64 + (U64 - b % U64)) % U64

/-! ## String helpers mirroring the Go standard library -/

/-- Helper of `fieldsOf`: split a character list at whitespace, accumulating
the current word in reverse in `acc`. -/
def wordsAux : List Char → List Char → List (List Char)
  | [], acc => if acc.isEmpty then [] else [acc.reverse]
  | c :: cs, acc =>
    if c.isWhitespace then
      if acc.isEmpty then wordsAux cs [] else acc.reverse :: wordsAux cs []
    else wordsAux cs (c :: acc)

/-- Go `strings.Fields(line)` (main.go line 160): the maximal runs of
non-whitespace characters of `line`. -/
def fieldsOf (line : String) : List String :=
  (wordsAux line.toList []).map fun cs => String.mk cs

/-- Go `strings.TrimSuffix(s, ":")` (main.go line 166): drop one trailing
colon when present. -/
def trimColon (s : String) : String :=
  if s.toList.getLast? = some ':' then String.mk s.toList.dropLast else s

/-- The interface name of a raw counter line: `strings.TrimSuffix(fields[0], ":")`. -/
def ifaceNameOf (line : String) : String := trimColon ((fieldsOf line).headD "")

/-- Go `fmt.Sscanf(s, "%d", &x)` into a `uint64` variable whose value is the
zero value `0` (main.go lines 189-199): the maximal run of leading decimal
digits (after leading spaces) is parsed; when there is no digit, or the
value overflows `uint64`, `Sscanf` reports an error that the code discards
and the variable keeps its zero value. -/
def sscanUint (s : String) : Nat :=
  let t := s.toList.dropWhile (·.isWhitespace)
  let ds := t.takeWhile (·.isDigit)
  let v := ds.foldl (fun n c => 10 * n + (c.toNat - 48)) 0
  if ds.isEmpty then 0 else if v < U64 then v else 0

/-- Helper of `stringsSplit`: split a character list at the separator,
accumulating the current piece in reverse in `acc`. -/
def splitOnChar (sep : Char) : List Char → List Char → List String
  | [], acc => [String.mk acc.reverse]
  | c :: cs, acc =>
    if c = sep then String.mk acc.reverse :: splitOnChar sep cs []
    else splitOnChar sep cs (c :: acc)

/-- Go `strings.Split(s, sep)` for a one-character separator (main.go
line 299 with `","`; also the colon handling of `net.SplitHostPort`). -/
def stringsSplit (s : String) (sep : Char) : List String :=
  splitOnChar sep s.toList []

/-- Go `strings.TrimSpace(s)` (main.go lines 179 and 301): drop leading and
trailing whitespace. -/
def goTrimSpace (s : String) : String :=
  String.mk (((s.toList.dropWhile (·.isWhitespace)).reverse.dropWhile (·.isWhitespace)).reverse)

/-- Modelled after Go `net.SplitHostPort` (main.go line 294), restricted to
the unbracketed forms this exporter sees: an address with exactly one colon
splits into host and port; an address with no colon is a `missing port`
error; several unbracketed colons are a `too many colons` error.  Bracketed
IPv6 literals are outside this model.  Errors are `none`. -/
def splitHostPort (s : String) : Option (String × String) :=
  match stringsSplit s ':' with
  | [host, p] => some (host, p)
  | _ => none

/-! ## Gauges

The five `GaugeVec` families of main.go lines 35-73, modelled as a list of
`set` events (`GaugeUpdate`, in publication order) and as the resulting map
from label keys to values (`GaugeState`). -/

/-- The `direction` label: `receive` or `transmit`. -/
inductive Direction where
  | receive
  | transmit
deriving DecidableEq

/-- One `Set` call on one of the five gauge families, with its labels and
value, in the order the code issues them. -/
inductive GaugeUpdate where
  | speed (iface : String) (dir : Direction) (value : ℚ)
  | errors (iface : String) (dir : Direction) (value : ℚ)
  | drops (iface : String) (dir : Direction) (value : ℚ)
  | packets (iface : String) (dir : Direction) (value : ℚ)
  | info (iface : String) (description : String) (value : ℚ)
deriving DecidableEq

/-- A label key of one of the five gauge families. -/
inductive GaugeKey where
  | speed (iface : String) (dir : Direction)
  | errors (iface : String) (dir : Direction)
  | drops (iface : String) (dir : Direction)
  | packets (iface : String) (dir : Direction)
  | info (iface : String) (description : String)
deriving DecidableEq

/-- The label key written by an update. -/
def GaugeUpdate.key : GaugeUpdate → GaugeKey
  | .speed i d _ => .speed i d
  | .errors i d _ => .errors i d
  | .drops i d _ => .drops i d
  | .packets i d _ => .packets i d
  | .info i desc _ => .info i desc

/-- The value written by an update. -/
def GaugeUpdate.value : GaugeUpdate → ℚ
  | .speed _ _ v => v
  | .errors _ _ v => v
  | .drops _ _ v => v
  | .packets _ _ v => v
  | .info _ _ v => v

/-- The state of all published gauges: the last value set for each label
key, `none` for keys never set. -/
def GaugeState := GaugeKey → Option ℚ

/-- One gauge `Set` call applied to the gauge state. -/
def applyUpdate (g : GaugeState) (u : GaugeUpdate) : GaugeState :=
  fun k => if k = u.key then some u.value else g k

/-- A sequence of `Set` calls applied in order. -/
def applyUpdates (g : GaugeState) (us : List GaugeUpdate) : GaugeState :=
  us.foldl applyUpdate g

/-- The last value set on the `network_interface_speed_bits` gauge for the
given interface and direction by a list of updates, `none` when that gauge
is not written. -/
def publishedSpeed (us : List GaugeUpdate) (i : String) (d : Direction) : Option ℚ :=
  (us.filterMap fun u =>
    match u with
    | .speed i2 d2 v => if i2 = i ∧ d2 = d then some v else none
    | _ => none).getLast?

/-! ## The sample store (`prevStats`, main.go lines 76-95) -/

/-- One entry of `prevStats.stats`: the anonymous struct of main.go
lines 78-85.  `time` is `sampledAt` of the spec, `lastSeen` drives
eviction. -/
structure InterfaceStats where
  rxBytes : Nat
  txBytes : Nat
  rxPackets : Nat
  txPackets : Nat
  rxErrors : Nat
  txErrors : Nat
  rxDrops : Nat
  txDrops : Nat
  time : Int
  lastSeen : Int
deriving DecidableEq

/-- The store `prevStats.stats`, an association list keyed by interface
name.  The list order stands for the (randomized) Go map iteration order;
a well-formed store has pairwise distinct keys. -/
abbrev Store := List (String × InterfaceStats)

/-- Go map assignment `prevStats.stats[ifaceName] = sample` (main.go
lines 257-277): replace the entry in place when the key is present,
otherwise add a new entry. -/
def storeInsert (k : String) (v : InterfaceStats) : Store → Store
  | [] => [(k, v)]
  | e :: rest => if e.1 = k then (k, v) :: rest else e :: storeInsert k v rest

/-! ## Counter parsing (main.go lines 188-199) -/

/-- The eight counters scanned from one raw line. -/
structure Counters where
  rxBytes : Nat
  txBytes : Nat
  rxPackets : Nat
  txPackets : Nat
  rxErrors : Nat
  txErrors : Nat
  rxDrops : Nat
  txDrops : Nat
deriving DecidableEq

/-- The eight `fmt.Sscanf(fields[i], "%d", ...)` calls of main.go
lines 192-199: receive bytes/packets/errors/drops from fields 1-4,
transmit bytes/packets/errors/drops from fields 9-12. -/
def parseCounters (fs : List String) : Counters :=
  { rxBytes := sscanUint (fs.getD 1 "")
    rxPackets := sscanUint (fs.getD 2 "")
    rxErrors := sscanUint (fs.getD 3 "")
    rxDrops := sscanUint (fs.getD 4 "")
    txBytes := sscanUint (fs.getD 9 "")
    txPackets := sscanUint (fs.getD 10 "")
    txErrors := sscanUint (fs.getD 11 "")
    txDrops := sscanUint (fs.getD 12 "") }

/-- The sample stored for an interface read at time `now` (main.go
lines 258-276): the eight parsed counters with `time` and `lastSeen` both
set to `now`. -/
def mkSample (c : Counters) (now : Int) : InterfaceStats :=
  { rxBytes := c.rxBytes
    txBytes := c.txBytes
    rxPackets := c.rxPackets
    txPackets := c.txPackets
    rxErrors := c.rxErrors
    txErrors := c.txErrors
    rxDrops := c.rxDrops
    txDrops := c.txDrops
    time := now
    lastSeen := now }

/-! ## External collaborators -/

/-- The flags of `net.Interface` the code inspects (main.go line 171). -/
structure GoInterface where
  flagUp : Bool
  flagLoopback : Bool
deriving DecidableEq

/-- The external collaborators of one sampling cycle:
`net.InterfaceByName` (`none` models a lookup error) and reading
`/sys/class/net/<iface>/ifalias` (`none` models a read error). -/
structure Env where
  ifaceByName : String → Option GoInterface
  ifalias : String → Option String

/-- The `description` label (main.go lines 176-180): the trimmed `ifalias`
content when readable, otherwise `"Unknown"`. -/
def descriptionOf (env : Env) (ifaceName : String) : String :=
  match env.ifalias ifaceName with
  | some content => goTrimSpace content
  | none => "Unknown"

/-! ## Per-line processing (the body of the scanner loop, main.go
lines 158-278) -/

/-- The gauge writes guarded by `if exists` and `if timeDiff > 0` (main.go
lines 206-253), for a previous sample `prev` and current counters `c` read
at time `now`.  The code's guard is `timeDiff > 0` on the float seconds,
equivalent to the integer test `prev.time < now` (see `elapsedSec_pos`).
The two speed values are computed with `uint64` subtraction before the
`float64` conversion; the error/drop/packet gauges receive the absolute
current counters. -/
def rateUpdates (ifaceName : String) (now : Int) (prev : InterfaceStats) (c : Counters) :
    List GaugeUpdate :=
  if prev.time < now then
    [ .speed ifaceName .receive
        ((u64sub c.rxBytes prev.rxBytes : ℚ) * (bytesToBits : ℚ) / elapsedSec prev.time now),
      .speed ifaceName .transmit
        ((u64sub c.txBytes prev.txBytes : ℚ) * (bytesToBits : ℚ) / elapsedSec prev.time now),
      .errors ifaceName .receive (c.rxErrors : ℚ),
      .errors ifaceName .transmit (c.txErrors : ℚ),
      .drops ifaceName .receive (c.rxDrops : ℚ),
      .drops ifaceName .transmit (c.txDrops : ℚ),
      .packets ifaceName .receive (c.rxPackets : ℚ),
      .packets ifaceName .transmit (c.txPackets : ℚ) ]
  else []

/-- One iteration of the scanner loop (main.go lines 158-278) on one raw
line, at time `now`: the gauge updates it issues, in order, and the store
it leaves behind.  Lines with fewer than 17 fields are skipped; so are
interfaces whose metadata lookup fails, loopback interfaces, and
interfaces that are not up — in all those cases the store is untouched
(the code records such names in a local `currentInterfaces` map that the
rest of the program never reads). -/
def processLine (env : Env) (now : Int) (store : Store) (line : String) :
    List GaugeUpdate × Store :=
  let fs := fieldsOf line
  if fs.length < 17 then ([], store)
  else
    let ifaceName := trimColon (fs.headD "")
    match env.ifaceByName ifaceName with
    | none => ([], store)
    | some iface =>
      if iface.flagLoopback || !iface.flagUp then ([], store)
      else
        let c := parseCounters fs
        let upd :=
          GaugeUpdate.info ifaceName (descriptionOf env ifaceName) 1 ::
            (match store.lookup ifaceName with
             | some prev => rateUpdates ifaceName now prev c
             | none => [])
        (upd, storeInsert ifaceName (mkSample c now) store)

/-! ## Eviction (`cleanupOldInterfaces`, main.go lines 108-133) -/

/-- The staleness pass (main.go lines 112-117): delete every entry whose
`lastSeen` is more than `cleanupInterval` before `now`. -/
def evictStale (now : Int) (store : Store) : Store :=
  store.filter fun e => !(decide (cleanupIntervalNs < now - e.2.lastSeen))

/-- The comparator of the `sort.Slice` call (main.go lines 126-128):
ascending `lastSeen`.  The code sorts with the strict `Before`; the order
it produces is ascending `lastSeen` with ties in unspecified order, which
an insertion sort on this lax comparator reproduces relative to the
(already unspecified) input order. -/
def entryLE (a b : String × InterfaceStats) : Prop :=
  a.2.lastSeen ≤ b.2.lastSeen

instance : DecidableRel entryLE :=
  fun a b => inferInstanceAs (Decidable (a.2.lastSeen ≤ b.2.lastSeen))

instance : IsTotal (String × InterfaceStats) entryLE :=
  ⟨fun a b => Int.le_total a.2.lastSeen b.2.lastSeen⟩

instance : IsTrans (String × InterfaceStats) entryLE :=
  ⟨fun _ _ _ h1 h2 => le_trans h1 h2⟩

/-- The capacity pass (main.go lines 120-132), with the capacity as a
parameter (the code passes `maxInterfaces`): when the store holds more than
`maxSize` entries, collect the entries in iteration order, sort ascending
by `lastSeen`, and delete the names of the first `count - maxSize` sorted
entries. -/
def enforceCapacity (maxSize : Nat) (store : Store) : Store :=
  if maxSize < store.length then
    store.filter fun e =>
      !((((List.insertionSort entryLE store).take (store.length - maxSize)).map
          Prod.fst).contains e.1)
  else store

/-- `cleanupOldInterfaces` (main.go lines 108-133): the staleness pass, then
the capacity pass with capacity `maxInterfaces`. -/
def cleanupOldInterfaces (now : Int) (store : Store) : Store :=
  enforceCapacity maxInterfaces (evictStale now store)

/-! ## One iteration of the sampling loop (main.go lines 139-285) -/

/-- The outcome of one iteration of the `for` loop of
`collectNetworkSpeeds`: the gauge updates issued, the store left behind,
and the seconds slept before the next iteration. -/
structure CycleResult where
  updates : List GaugeUpdate
  store : Store
  sleepSeconds : ℚ
deriving DecidableEq

/-- One iteration of the sampling loop at time `now`.  `snapshot` is the
result of opening and reading `/proc/net/dev`: `none` when the open fails
(main.go lines 141-146: log, sleep one second, `continue` — no gauge is
written and the store is untouched), otherwise the list of lines.  On
success the first two header lines are skipped, each remaining line is
processed in order, `cleanupOldInterfaces` runs, and the loop sleeps one
second. -/
def cycle (env : Env) (now : Int) (store : Store) (snapshot : Option (List String)) :
    CycleResult :=
  match snapshot with
  | none => ⟨[], store, 1⟩
  | some lines =>
    let step := (lines.drop 2).foldl
      (fun acc line =>
        let r := processLine env now acc.1 line
        (r.2, acc.2 ++ r.1))
      (store, ([] : List GaugeUpdate))
    ⟨step.2, cleanupOldInterfaces now step.1, 1⟩

/-! ## The IP allowlist (`isIPAllowed`, main.go lines 288-307) -/

/-- The trimmed entries of the comma-separated allowlist string (main.go
lines 299-301). -/
def allowEntries (allowedIPs : String) : List String :=
  (stringsSplit allowedIPs ',').map goTrimSpace

/-- The source IP compared against the allowlist (main.go lines 294-297):
the host part of `remoteAddr` when `net.SplitHostPort` succeeds, the whole
string otherwise. -/
def extractIP (remoteAddr : String) : String :=
  match splitHostPort remoteAddr with
  | some hp => hp.1
  | none => remoteAddr

/-- `isIPAllowed` (main.go lines 288-307): allow everything when the
allowlist string is empty, otherwise allow exactly the requests whose
extracted source IP equals some trimmed allowlist entry. -/
def isIPAllowed (allowedIPs remoteAddr : String) : Bool :=
  if allowedIPs = "" then true
  else
    let ip := extractIP remoteAddr
    (allowEntries allowedIPs).any fun allowedIP => ip == allowedIP

/-! ## Basic lemmas about the model -/

/-- The code guard `timeDiff > 0` on the float seconds is equivalent to the
integer nanosecond comparison used in `rateUpdates`. -/
theorem elapsedSec_pos (t1 t2 : Int) : 0 < elapsedSec t1 t2 ↔ t1 < t2 := by
  unfold elapsedSec nanosPerSecond
  rw [div_pos_iff]
  constructor
  · rintro (⟨h, -⟩ | ⟨-, h⟩)
    · have h2 : (0 : Int) < t2 - t1 := by exact_mod_cast h
      omega
    · norm_num at h
  · intro h
    refine Or.inl ⟨?_, by norm_num⟩
    have h2 : (0 : Int) < t2 - t1 := by omega
    exact_mod_cast h2

/-- Every counter produced by the `Sscanf` model is a `uint64` value. -/
theorem sscanUint_lt (s : String) : sscanUint s < U64 := by
  simp only [sscanUint]
  split
  · norm_num [U64]
  · split
    · assumption
    · norm_num [U64]

/-- `uint64` subtraction agrees with true subtraction when no wraparound
occurs. -/
theorem u64sub_eq_of_le {a b : Nat} (h : b ≤ a) (ha : a < U64) : u64sub a b = a - b := by
  have hb : b < U64 := lt_of_le_of_lt h ha
  have hU : U64 = 18446744073709551616 := by norm_num [U64]
  unfold u64sub
  rw [Nat.mod_eq_of_lt ha, Nat.mod_eq_of_lt hb]
  rw [hU] at ha hb ⊢
  omega

/-- `uint64` subtraction on a decreased counter wraps to a huge value. -/
theorem u64sub_eq_of_lt {a b : Nat} (h : a < b) (hb : b < U64) : u64sub a b = U64 - (b - a) := by
  have ha : a < U64 := lt_trans h hb
  have hU : U64 = 18446744073709551616 := by norm_num [U64]
  unfold u64sub
  rw [Nat.mod_eq_of_lt ha, Nat.mod_eq_of_lt hb]
  rw [hU] at ha hb ⊢
  omega

/-- A `storeInsert` is found by a lookup of the same key. -/
theorem lookup_storeInsert_self (k : String) (v : InterfaceStats) (s : Store) :
    (storeInsert k v s).lookup k = some v := by
  induction s with
  | nil => simp [storeInsert, List.lookup]
  | cons e rest ih =>
    obtain ⟨k2, v2⟩ := e
    by_cases h : k2 = k
    · simp [storeInsert, h, List.lookup]
    · have h2 : (k == k2) = false := beq_eq_false_iff_ne.mpr (Ne.symm h)
      simp [storeInsert, h, List.lookup, h2, ih]

/-- Keys never written by a list of updates keep their gauge value. -/
theorem applyUpdates_of_not_written (g : GaugeState) (us : List GaugeUpdate) (k : GaugeKey)
    (h : ∀ u ∈ us, u.key ≠ k) : applyUpdates g us k = g k := by
  induction us generalizing g with
  | nil => rfl
  | cons u us ih =>
    have hk : u.key ≠ k := h u (by simp)
    have : applyUpdate g u k = g k := by simp [applyUpdate, (Ne.symm hk)]
    calc applyUpdates g (u :: us) k = applyUpdates (applyUpdate g u) us k := rfl
      _ = applyUpdate g u k := ih _ fun u hu => h u (by simp [hu])
      _ = g k := this

/-- Unfolding `processLine` on a well-formed line for an up, non-loopback
interface with a stored previous sample. -/
theorem processLine_eq_of_up_some (env : Env) (now : Int) (store : Store) (line : String)
    (iface : GoInterface) (prev : InterfaceStats)
    (hf : 17 ≤ (fieldsOf line).length)
    (hif : env.ifaceByName (ifaceNameOf line) = some iface)
    (hup : iface.flagUp = true) (hlo : iface.flagLoopback = false)
    (hprev : store.lookup (ifaceNameOf line) = some prev) :
    processLine env now store line =
      (GaugeUpdate.info (ifaceNameOf line) (descriptionOf env (ifaceNameOf line)) 1 ::
        rateUpdates (ifaceNameOf line) now prev (parseCounters (fieldsOf line)),
       storeInsert (ifaceNameOf line) (mkSample (parseCounters (fieldsOf line)) now) store) := by
  have h17 : ¬ (fieldsOf line).length < 17 := by omega
  simp only [ifaceNameOf] at hif hprev
  simp only [processLine, if_neg h17, hif, hup, hlo, hprev, Bool.not_true, Bool.false_or,
    Bool.or_false, if_neg (by simp : ¬ (false : Bool) = true), ifaceNameOf]

/-- Unfolding `processLine` on a well-formed line for an up, non-loopback
interface with no stored previous sample. -/
theorem processLine_eq_of_up_none (env : Env) (now : Int) (store : Store) (line : String)
    (iface : GoInterface)
    (hf : 17 ≤ (fieldsOf line).length)
    (hif : env.ifaceByName (ifaceNameOf line) = some iface)
    (hup : iface.flagUp = true) (hlo : iface.flagLoopback = false)
    (hprev : store.lookup (ifaceNameOf line) = none) :
    processLine env now store line =
      ([GaugeUpdate.info (ifaceNameOf line) (descriptionOf env (ifaceNameOf line)) 1],
       storeInsert (ifaceNameOf line) (mkSample (parseCounters (fieldsOf line)) now) store) := by
  have h17 : ¬ (fieldsOf line).length < 17 := by omega
  simp only [ifaceNameOf] at hif hprev
  simp only [processLine, if_neg h17, hif, hup, hlo, hprev, Bool.not_true, Bool.false_or,
    Bool.or_false, if_neg (by simp : ¬ (false : Bool) = true), ifaceNameOf]

/-- Applying a list of updates starting from its head. -/
theorem applyUpdates_cons (g : GaugeState) (u : GaugeUpdate) (us : List GaugeUpdate)
    (k : GaugeKey) : applyUpdates g (u :: us) k = applyUpdates (applyUpdate g u) us k := rfl

/-- The delta block never writes the interface-info gauge. -/
theorem rateUpdates_key_ne_info (n : String) (now : Int) (prev : InterfaceStats) (c : Counters)
    (i desc : String) :
    ∀ u ∈ rateUpdates n now prev c, u.key ≠ GaugeKey.info i desc := by
  intro u hu
  unfold rateUpdates at hu
  split at hu
  · simp only [List.mem_cons, List.mem_singleton, List.not_mem_nil, or_false] at hu
    rcases hu with h | h | h | h | h | h | h | h <;> subst h <;> simp [GaugeUpdate.key]
  · simp at hu

/-- Filtering a permutation of `L` by any predicate that rejects the first
`K` elements of `L` and accepts the rest keeps, up to permutation, exactly
the suffix of `L` past `K`. -/
theorem filter_perm_drop_of_split (L store : Store) (K : Nat)
    (p : String × InterfaceStats → Bool) (hperm : List.Perm L store)
    (htake : ∀ e ∈ L.take K, p e = false)
    (hdrop : ∀ e ∈ L.drop K, p e = true) :
    List.Perm (store.filter p) (L.drop K) := by
  have h1 : List.Perm (L.filter p) (store.filter p) := hperm.filter p
  have h2 : L.filter p = L.drop K := by
    conv_lhs => rw [← List.take_append_drop K L]
    rw [List.filter_append,
      List.filter_eq_nil_iff.mpr (fun a ha => by simp [htake a ha]),
      List.filter_eq_self.mpr hdrop, List.nil_append]
  exact (h2 ▸ h1).symm

/-- Beyond capacity, the capacity pass keeps — up to permutation — exactly
the entries of the sorted order past the first `count - maxSize`, provided
the store keys are pairwise distinct. -/
theorem enforceCapacity_perm_drop (maxSize : Nat) (store : Store)
    (hkeys : (store.map Prod.fst).Nodup) (hbig : maxSize < store.length) :
    List.Perm (enforceCapacity maxSize store)
      ((List.insertionSort entryLE store).drop (store.length - maxSize)) := by
  have hperm : List.Perm (List.insertionSort entryLE store) store :=
    List.perm_insertionSort entryLE store
  have hLkeys : ((List.insertionSort entryLE store).map Prod.fst).Nodup :=
    ((hperm.map Prod.fst).nodup_iff).mpr hkeys
  have hnd : (((List.insertionSort entryLE store).take (store.length - maxSize)).map Prod.fst ++
      ((List.insertionSort entryLE store).drop (store.length - maxSize)).map Prod.fst).Nodup := by
    rw [← List.map_append, List.take_append_drop]
    exact hLkeys
  have hdisj := (List.nodup_append.mp hnd).2.2
  rw [enforceCapacity, if_pos hbig]
  refine filter_perm_drop_of_split _ _ _ _ hperm ?_ ?_
  · intro e he
    simp only [Bool.not_eq_false']
    exact List.elem_eq_true_of_mem (List.mem_map_of_mem Prod.fst he)
  · intro e he
    simp only [Bool.not_eq_true']
    exact Bool.eq_false_iff.mpr fun hcon =>
      hdisj (List.elem_iff.mp hcon) (List.mem_map_of_mem Prod.fst he)

/-! ## Concrete fixtures for witnesses and counterexamples -/

/-- An environment where `eth0` is up and not loopback, with no readable
`ifalias`. -/
def envW : Env :=
  { ifaceByName := fun n => if n = "eth0" then some ⟨true, false⟩ else none
    ifalias := fun _ => none }

/-- A well-formed `/proc/net/dev` line for `eth0`: 2000 receive bytes,
20 receive packets, 1500 transmit bytes, 15 transmit packets. -/
def lineW : String := "eth0: 2000 20 0 0 0 0 0 0 1500 15 0 0 0 0 0 0"

/-- A previous sample for `eth0` taken at time 0. -/
def prevW : InterfaceStats :=
  { rxBytes := 1000, txBytes := 500, rxPackets := 10, txPackets := 5,
    rxErrors := 0, txErrors := 0, rxDrops := 0, txDrops := 0,
    time := 0, lastSeen := 0 }

/-- A store holding only the previous `eth0` sample. -/
def storeW : Store := [("eth0", prevW)]

/-- A line whose receive byte counter (50) is below the stored previous
value (100): a counter decrease. -/
def lineC2 : String := "eth0: 50 20 0 0 0 0 0 0 1500 15 0 0 0 0 0 0"

/-- A previous `eth0` sample with 100 receive bytes, taken at time 0. -/
def prevC2 : InterfaceStats := { prevW with rxBytes := 100, txBytes := 0 }

/-- A store holding only `prevC2`. -/
def storeC2 : Store := [("eth0", prevC2)]

/-- An environment where `dummy0` resolves but is administratively down. -/
def envC5 : Env :=
  { ifaceByName := fun n => if n = "dummy0" then some ⟨false, false⟩ else none
    ifalias := fun _ => none }

/-- A well-formed raw counter line for the down interface `dummy0`. -/
def lineC5 : String := "dummy0: 2000 20 0 0 0 0 0 0 1500 15 0 0 0 0 0 0"

/-- A store holding a sample for `dummy0` whose `lastSeen` is 0. -/
def storeC5 : Store := [("dummy0", prevW)]

/-- A line whose receive byte field `abc` fails to parse as a decimal
integer. -/
def lineC9 : String := "eth0: abc 20 0 0 0 0 0 0 1500 15 0 0 0 0 0 0"

/-- A previous `eth0` sample taken at time 10^9 ns. -/
def prevC4 : InterfaceStats := { prevW with time := 1000000000, lastSeen := 1000000000 }

/-- A sample whose `time` and `lastSeen` are both `t`. -/
def sampleAt (t : Int) : InterfaceStats := { prevW with time := t, lastSeen := t }

/-- Three entries with pairwise distinct names and `lastSeen` values. -/
def storeC3 : Store := [("a", sampleAt 3), ("b", sampleAt 1), ("c", sampleAt 2)]

/-- Pairwise distinct unary interface names for the large tie store. -/
def natName : Nat → List Char
  | 0 => []
  | n + 1 => 'x' :: natName n

/-- 999 filler entries with pairwise distinct names and pairwise distinct
`lastSeen` values, all later than the tied pair. -/
def fillerC6 : Store :=
  (List.range 999).map fun i => (String.mk ('x' :: natName i), sampleAt (10 + (i : Int)))

/-- A 1001-entry store: `a` and `b` tied at `lastSeen = 5` (oldest), `a`
first in iteration order. -/
def storeC6a : Store := ("a", sampleAt 5) :: ("b", sampleAt 5) :: fillerC6

/-- The same 1001 entries with `b` first in iteration order. -/
def storeC6b : Store := ("b", sampleAt 5) :: ("a", sampleAt 5) :: fillerC6

/-- A store holding only `prevC4`. -/
def storeC4 : Store := [("eth0", prevC4)]

/-! ## Claim theorems -/

/-- **C10.**  For every up, non-loopback interface on a well-formed raw
line, the interface-info gauge keyed by (interface, description) is set
to 1, as the very first gauge write of the line and for every store — in
particular on the first cycle that observes the interface — independent of
the previous-sample lookup and of the elapsed-time guard that gate all
other gauges (main.go lines 175-186 against 206-209). -/
theorem interface_info_always_published (env : Env) (now : Int) (store : Store)
    (line : String) (iface : GoInterface)
    (hf : 17 ≤ (fieldsOf line).length)
    (hif : env.ifaceByName (ifaceNameOf line) = some iface)
    (hup : iface.flagUp = true) (hlo : iface.flagLoopback = false) :
    (processLine env now store line).1.head? =
      some (GaugeUpdate.info (ifaceNameOf line) (descriptionOf env (ifaceNameOf line)) 1) ∧
    ∀ g : GaugeState,
      applyUpdates g (processLine env now store line).1
        (GaugeKey.info (ifaceNameOf line) (descriptionOf env (ifaceNameOf line))) = some 1 := by
  cases hprev : store.lookup (ifaceNameOf line) with
  | none =>
    rw [processLine_eq_of_up_none env now store line iface hf hif hup hlo hprev]
    refine ⟨rfl, fun g => ?_⟩
    simp [applyUpdates, applyUpdate, GaugeUpdate.key, GaugeUpdate.value]
  | some prev =>
    rw [processLine_eq_of_up_some env now store line iface prev hf hif hup hlo hprev]
    refine ⟨rfl, fun g => ?_⟩
    rw [applyUpdates_cons,
      applyUpdates_of_not_written _ _ _ (rateUpdates_key_ne_info _ _ _ _ _ _)]
    simp [applyUpdate, GaugeUpdate.key, GaugeUpdate.value]

/-- Witness for `interface_info_always_published`: the first cycle ever
(`store = []`) on the `eth0` fixture publishes the info gauge with
value 1. -/
theorem interface_info_always_published_witness :
    (processLine envW 1000000000 [] lineW).1.head? =
      some (GaugeUpdate.info (ifaceNameOf lineW) (descriptionOf envW (ifaceNameOf lineW)) 1) ∧
    applyUpdates (fun _ => none) (processLine envW 1000000000 [] lineW).1
      (GaugeKey.info (ifaceNameOf lineW) (descriptionOf envW (ifaceNameOf lineW))) = some 1 :=
  ⟨(interface_info_always_published envW 1000000000 [] lineW ⟨true, false⟩
      (by decide) (by decide) rfl rfl).1,
   (interface_info_always_published envW 1000000000 [] lineW ⟨true, false⟩
      (by decide) (by decide) rfl rfl).2 (fun _ => none)⟩

/-- **C4.**  When the stored previous sample is not strictly older than the
current reading (in particular when the timestamps are equal), the only
gauge written for that interface in that cycle is the info gauge — no
speed, error, drop or packet gauge, hence no division — and the current
reading is still stored as the new sample (main.go lines 206-277). -/
theorem nonpositive_elapsed_suppresses_gauges (env : Env) (now : Int) (store : Store)
    (line : String) (iface : GoInterface) (prev : InterfaceStats)
    (hf : 17 ≤ (fieldsOf line).length)
    (hif : env.ifaceByName (ifaceNameOf line) = some iface)
    (hup : iface.flagUp = true) (hlo : iface.flagLoopback = false)
    (hprev : store.lookup (ifaceNameOf line) = some prev)
    (ht : ¬ prev.time < now) :
    (processLine env now store line).1 =
      [GaugeUpdate.info (ifaceNameOf line) (descriptionOf env (ifaceNameOf line)) 1] ∧
    (processLine env now store line).2 =
      storeInsert (ifaceNameOf line) (mkSample (parseCounters (fieldsOf line)) now) store ∧
    (processLine env now store line).2.lookup (ifaceNameOf line) =
      some (mkSample (parseCounters (fieldsOf line)) now) := by
  rw [processLine_eq_of_up_some env now store line iface prev hf hif hup hlo hprev]
  refine ⟨?_, rfl, lookup_storeInsert_self _ _ _⟩
  simp [rateUpdates, if_neg ht]

/-- Witness for `nonpositive_elapsed_suppresses_gauges`: the current
reading carries the same timestamp 10^9 ns as the stored sample. -/
theorem nonpositive_elapsed_suppresses_gauges_witness :
    (processLine envW 1000000000 storeC4 lineW).1 =
      [GaugeUpdate.info (ifaceNameOf lineW) (descriptionOf envW (ifaceNameOf lineW)) 1] ∧
    (processLine envW 1000000000 storeC4 lineW).2 =
      storeInsert (ifaceNameOf lineW) (mkSample (parseCounters (fieldsOf lineW)) 1000000000)
        storeC4 ∧
    (processLine envW 1000000000 storeC4 lineW).2.lookup (ifaceNameOf lineW) =
      some (mkSample (parseCounters (fieldsOf lineW)) 1000000000) :=
  nonpositive_elapsed_suppresses_gauges envW 1000000000 storeC4 lineW ⟨true, false⟩ prevC4
    (by decide) (by decide) rfl rfl (by decide) (by decide)

/-- **C1.**  With a stored previous sample (counters `C1` at `T1`), a
current reading (counters `C2` at `T2`) with `T1 < T2` and no counter
decrease, the receive-rate gauge published for the interface that cycle is
`(C2.rxBytes − C1.rxBytes) × 8 / (T2 − T1 in seconds)` and the
transmit-rate gauge is `(C2.txBytes − C1.txBytes) × 8 / (T2 − T1 in
seconds)`, exactly, in exact rational arithmetic (main.go lines 206-222). -/
theorem publishedRate_eq_delta_formula (env : Env) (now : Int) (store : Store)
    (line : String) (iface : GoInterface) (prev : InterfaceStats)
    (hf : 17 ≤ (fieldsOf line).length)
    (hif : env.ifaceByName (ifaceNameOf line) = some iface)
    (hup : iface.flagUp = true) (hlo : iface.flagLoopback = false)
    (hprev : store.lookup (ifaceNameOf line) = some prev)
    (ht : prev.time < now)
    (hrx : prev.rxBytes ≤ (parseCounters (fieldsOf line)).rxBytes)
    (htx : prev.txBytes ≤ (parseCounters (fieldsOf line)).txBytes) :
    publishedSpeed (processLine env now store line).1 (ifaceNameOf line) Direction.receive =
      some ((((parseCounters (fieldsOf line)).rxBytes : ℚ) - (prev.rxBytes : ℚ)) * 8 /
        elapsedSec prev.time now) ∧
    publishedSpeed (processLine env now store line).1 (ifaceNameOf line) Direction.transmit =
      some ((((parseCounters (fieldsOf line)).txBytes : ℚ) - (prev.txBytes : ℚ)) * 8 /
        elapsedSec prev.time now) := by
  have hrxU : (parseCounters (fieldsOf line)).rxBytes < U64 := sscanUint_lt _
  have htxU : (parseCounters (fieldsOf line)).txBytes < U64 := sscanUint_lt _
  rw [processLine_eq_of_up_some env now store line iface prev hf hif hup hlo hprev]
  constructor
  · simp only [publishedSpeed, rateUpdates, if_pos ht, List.filterMap_cons, List.filterMap_nil,
      and_self, and_true, and_false, if_true, if_false, reduceCtorEq, ite_false, ite_true,
      List.getLast?_singleton, Option.some.injEq]
    rw [u64sub_eq_of_le hrx hrxU, Nat.cast_sub hrx]
    norm_num [bytesToBits]
  · simp only [publishedSpeed, rateUpdates, if_pos ht, List.filterMap_cons, List.filterMap_nil,
      and_self, and_true, and_false, if_true, if_false, reduceCtorEq, ite_false, ite_true,
      List.getLast?_singleton, Option.some.injEq]
    rw [u64sub_eq_of_le htx htxU, Nat.cast_sub htx]
    norm_num [bytesToBits]

/-- Witness for `publishedRate_eq_delta_formula`: `eth0` goes from
1000/500 bytes at time 0 to 2000/1500 bytes at time 10^9 ns. -/
theorem publishedRate_eq_delta_formula_witness :
    publishedSpeed (processLine envW 1000000000 storeW lineW).1 (ifaceNameOf lineW)
        Direction.receive =
      some ((((parseCounters (fieldsOf lineW)).rxBytes : ℚ) - (prevW.rxBytes : ℚ)) * 8 /
        elapsedSec prevW.time 1000000000) ∧
    publishedSpeed (processLine envW 1000000000 storeW lineW).1 (ifaceNameOf lineW)
        Direction.transmit =
      some ((((parseCounters (fieldsOf lineW)).txBytes : ℚ) - (prevW.txBytes : ℚ)) * 8 /
        elapsedSec prevW.time 1000000000) :=
  publishedRate_eq_delta_formula envW 1000000000 storeW lineW ⟨true, false⟩ prevW
    (by decide) (by decide) rfl rfl (by decide) (by decide) (by decide) (by decide)

/-- **C7.**  When `/proc/net/dev` cannot be opened at the start of a cycle
(`snapshot = none`), the iteration issues no gauge write, leaves the sample
store exactly as it was — so every previously published gauge value is
unchanged — and sleeps the fixed one-second backoff before the loop
retries (main.go lines 141-146). -/
theorem unreadable_source_keeps_state (env : Env) (now : Int) (store : Store) (g : GaugeState) :
    cycle env now store none = ⟨[], store, 1⟩ ∧
    applyUpdates g (cycle env now store none).updates = g :=
  ⟨rfl, rfl⟩

/-- **C2 counterexample.**  With the stored receive counter 100 and the
current reading 50 one second later, the claim predicts the published
receive gauge is the negative rate `(50 − 100) × 8 / 1 s = −400 bit/s`.
The code instead subtracts as `uint64`, so it publishes
`(2^64 − 50) × 8 bit/s`, a huge positive value: the published value is not
negative and differs from the claimed one. -/
theorem counter_decrease_not_negative_cex :
    publishedSpeed (processLine envW 1000000000 storeC2 lineC2).1 "eth0" Direction.receive =
      some (((u64sub 50 100 : ℕ) : ℚ) * (bytesToBits : ℚ) / elapsedSec 0 1000000000) ∧
    (u64sub 50 100 : ℕ) = U64 - 50 ∧
    ((50 : ℚ) - 100) * 8 / elapsedSec 0 1000000000 < 0 ∧
    ¬ (((u64sub 50 100 : ℕ) : ℚ) * (bytesToBits : ℚ) / elapsedSec 0 1000000000 < 0) ∧
    ((u64sub 50 100 : ℕ) : ℚ) * (bytesToBits : ℚ) / elapsedSec 0 1000000000 ≠
      ((50 : ℚ) - 100) * 8 / elapsedSec 0 1000000000 := by
  have hval : u64sub 50 100 = U64 - 50 := by decide
  refine ⟨by rfl, hval, ?_, ?_, ?_⟩
  · norm_num [elapsedSec, nanosPerSecond]
  · rw [hval]
    norm_num [elapsedSec, nanosPerSecond, U64, bytesToBits]
  · rw [hval]
    norm_num [elapsedSec, nanosPerSecond, U64, bytesToBits]

/-- **C2 (amended).**  When the current cumulative byte counter is strictly
below the stored previous value with strictly positive elapsed time, the
code publishes the `uint64`-wraparound rate
`(2^64 − (previous − current)) × 8 / elapsed`, a strictly positive (not
negative) value; there is no clamping to zero and no special-casing
(main.go lines 208-222). -/
theorem counter_decrease_wraparound_rate (env : Env) (now : Int) (store : Store)
    (line : String) (iface : GoInterface) (prev : InterfaceStats)
    (hf : 17 ≤ (fieldsOf line).length)
    (hif : env.ifaceByName (ifaceNameOf line) = some iface)
    (hup : iface.flagUp = true) (hlo : iface.flagLoopback = false)
    (hprev : store.lookup (ifaceNameOf line) = some prev)
    (ht : prev.time < now)
    (hbrx : prev.rxBytes < U64) (hbtx : prev.txBytes < U64) :
    ((parseCounters (fieldsOf line)).rxBytes < prev.rxBytes →
      publishedSpeed (processLine env now store line).1 (ifaceNameOf line) Direction.receive =
        some (((U64 - (prev.rxBytes - (parseCounters (fieldsOf line)).rxBytes) : ℕ) : ℚ) * 8 /
          elapsedSec prev.time now) ∧
      0 < ((U64 - (prev.rxBytes - (parseCounters (fieldsOf line)).rxBytes) : ℕ) : ℚ) * 8 /
          elapsedSec prev.time now) ∧
    ((parseCounters (fieldsOf line)).txBytes < prev.txBytes →
      publishedSpeed (processLine env now store line).1 (ifaceNameOf line) Direction.transmit =
        some (((U64 - (prev.txBytes - (parseCounters (fieldsOf line)).txBytes) : ℕ) : ℚ) * 8 /
          elapsedSec prev.time now) ∧
      0 < ((U64 - (prev.txBytes - (parseCounters (fieldsOf line)).txBytes) : ℕ) : ℚ) * 8 /
          elapsedSec prev.time now) := by
  rw [processLine_eq_of_up_some env now store line iface prev hf hif hup hlo hprev]
  have hsec : 0 < elapsedSec prev.time now := (elapsedSec_pos prev.time now).mpr ht
  constructor
  · intro hlt
    have hpos : 0 < ((U64 - (prev.rxBytes - (parseCounters (fieldsOf line)).rxBytes) : ℕ) : ℚ) := by
      have h1 : prev.rxBytes - (parseCounters (fieldsOf line)).rxBytes < U64 :=
        lt_of_le_of_lt (Nat.sub_le _ _) hbrx
      have h2 : 0 < U64 - (prev.rxBytes - (parseCounters (fieldsOf line)).rxBytes) := by omega
      exact_mod_cast h2
    refine ⟨?_, div_pos (mul_pos hpos (by norm_num)) hsec⟩
    simp only [publishedSpeed, rateUpdates, if_pos ht, List.filterMap_cons, List.filterMap_nil,
      and_self, and_true, and_false, if_true, if_false, reduceCtorEq, ite_false, ite_true,
      List.getLast?_singleton, Option.some.injEq]
    rw [u64sub_eq_of_lt hlt hbrx]
    norm_num [bytesToBits]
  · intro hlt
    have hpos : 0 < ((U64 - (prev.txBytes - (parseCounters (fieldsOf line)).txBytes) : ℕ) : ℚ) := by
      have h1 : prev.txBytes - (parseCounters (fieldsOf line)).txBytes < U64 :=
        lt_of_le_of_lt (Nat.sub_le _ _) hbtx
      have h2 : 0 < U64 - (prev.txBytes - (parseCounters (fieldsOf line)).txBytes) := by omega
      exact_mod_cast h2
    refine ⟨?_, div_pos (mul_pos hpos (by norm_num)) hsec⟩
    simp only [publishedSpeed, rateUpdates, if_pos ht, List.filterMap_cons, List.filterMap_nil,
      and_self, and_true, and_false, if_true, if_false, reduceCtorEq, ite_false, ite_true,
      List.getLast?_singleton, Option.some.injEq]
    rw [u64sub_eq_of_lt hlt hbtx]
    norm_num [bytesToBits]

/-- Witness for `counter_decrease_wraparound_rate`: `eth0` drops from 100
stored receive bytes to a reading of 50 one second later. -/
theorem counter_decrease_wraparound_rate_witness :
    publishedSpeed (processLine envW 1000000000 storeC2 lineC2).1 (ifaceNameOf lineC2)
        Direction.receive =
      some (((U64 - (prevC2.rxBytes - (parseCounters (fieldsOf lineC2)).rxBytes) : ℕ) : ℚ) * 8 /
        elapsedSec prevC2.time 1000000000) ∧
    0 < ((U64 - (prevC2.rxBytes - (parseCounters (fieldsOf lineC2)).rxBytes) : ℕ) : ℚ) * 8 /
        elapsedSec prevC2.time 1000000000 :=
  (counter_decrease_wraparound_rate envW 1000000000 storeC2 lineC2 ⟨true, false⟩ prevC2
    (by decide) (by decide) rfl rfl (by decide) (by decide) (by decide) (by decide)).1
    (by decide)

/-- **C9.**  On a well-formed line (≥ 17 fields) for an up, non-loopback
interface whose receive-byte field has no leading decimal digit, the
`Sscanf` error is discarded and the counter is taken as 0; the line is not
skipped — the sample holding that 0 is stored — and a later delta cycle
computes the receive rate against the stored 0 (main.go lines 189-199 and
256-277). -/
theorem unparsable_counter_stored_as_zero (env : Env) (now : Int) (store : Store)
    (line : String) (iface : GoInterface)
    (hf : 17 ≤ (fieldsOf line).length)
    (hif : env.ifaceByName (ifaceNameOf line) = some iface)
    (hup : iface.flagUp = true) (hlo : iface.flagLoopback = false)
    (hfail : ((((fieldsOf line).getD 1 "").toList.dropWhile (·.isWhitespace)).takeWhile
      (·.isDigit)).isEmpty = true) :
    (parseCounters (fieldsOf line)).rxBytes = 0 ∧
    (processLine env now store line).2.lookup (ifaceNameOf line) =
      some (mkSample (parseCounters (fieldsOf line)) now) ∧
    ∀ (now2 : Int) (c2 : Counters), now < now2 → c2.rxBytes < U64 →
      publishedSpeed
        (rateUpdates (ifaceNameOf line) now2 (mkSample (parseCounters (fieldsOf line)) now) c2)
        (ifaceNameOf line) Direction.receive =
        some ((c2.rxBytes : ℚ) * 8 / elapsedSec now now2) := by
  have h0 : (parseCounters (fieldsOf line)).rxBytes = 0 := by
    show sscanUint _ = 0
    simp only [sscanUint]
    rw [if_pos hfail]
  refine ⟨h0, ?_, ?_⟩
  · cases hprev : store.lookup (ifaceNameOf line) with
    | none =>
      rw [processLine_eq_of_up_none env now store line iface hf hif hup hlo hprev]
      exact lookup_storeInsert_self _ _ _
    | some prev =>
      rw [processLine_eq_of_up_some env now store line iface prev hf hif hup hlo hprev]
      exact lookup_storeInsert_self _ _ _
  · intro now2 c2 hlt hc2
    have hsub : u64sub c2.rxBytes (mkSample (parseCounters (fieldsOf line)) now).rxBytes =
        c2.rxBytes := by
      show u64sub c2.rxBytes (parseCounters (fieldsOf line)).rxBytes = c2.rxBytes
      rw [h0, u64sub_eq_of_le (Nat.zero_le _) hc2, Nat.sub_zero]
    have htime : (mkSample (parseCounters (fieldsOf line)) now).time = now := rfl
    simp only [publishedSpeed, rateUpdates, htime, if_pos hlt, List.filterMap_cons,
      List.filterMap_nil, and_self, and_true, and_false, if_true, if_false, reduceCtorEq,
      ite_false, ite_true, List.getLast?_singleton, Option.some.injEq]
    rw [hsub]
    norm_num [bytesToBits]

/-- Witness for `unparsable_counter_stored_as_zero`: the field `abc` parses
to 0, is stored, and a later reading of 2000 bytes one second on yields
rate `2000 × 8 / 1 s`. -/
theorem unparsable_counter_stored_as_zero_witness :
    (parseCounters (fieldsOf lineC9)).rxBytes = 0 ∧
    (processLine envW 1000000000 [] lineC9).2.lookup (ifaceNameOf lineC9) =
      some (mkSample (parseCounters (fieldsOf lineC9)) 1000000000) ∧
    publishedSpeed
      (rateUpdates (ifaceNameOf lineC9) 2000000000
        (mkSample (parseCounters (fieldsOf lineC9)) 1000000000)
        (parseCounters (fieldsOf lineW)))
      (ifaceNameOf lineC9) Direction.receive =
      some (((parseCounters (fieldsOf lineW)).rxBytes : ℚ) * 8 /
        elapsedSec 1000000000 2000000000) := by
  have h := unparsable_counter_stored_as_zero envW 1000000000 [] lineC9 ⟨true, false⟩
    (by decide) (by decide) rfl rfl (by decide)
  exact ⟨h.1, h.2.1, h.2.2 2000000000 (parseCounters (fieldsOf lineW)) (by decide) (by decide)⟩

/-- **C5 (code bug).**  A well-formed raw line (17 fields) for `dummy0`
appears in the scan while `dummy0` is administratively down, so the read is
skipped; the store — including the stored sample's `lastSeen`, still 0 —
is returned unchanged rather than being refreshed to the scan time
10^9 ns.  The `currentInterfaces` map that main.go line 167 fills ("Track
current interfaces to clean up old ones") is never consumed by the
cleanup. -/
theorem skipped_scan_leaves_lastSeen_stale :
    17 ≤ (fieldsOf lineC5).length ∧
    (processLine envC5 1000000000 storeC5 lineC5).2 = storeC5 ∧
    (processLine envC5 1000000000 storeC5 lineC5).1 = [] ∧
    ((storeC5.lookup "dummy0").map InterfaceStats.lastSeen) = some 0 :=
  ⟨by decide, by decide, by decide, by decide⟩

/-- **C3.**  Capacity enforcement with capacity `maxSize` (the code passes
`maxInterfaces = 1000`): on a store of `maxSize + K` entries (`K > 0`) with
pairwise distinct names and pairwise distinct `lastSeen` values, exactly
`maxSize` entries survive, the survivors form a subsequence of the store,
and every removed entry is strictly older than every surviving entry — so
exactly the `K` oldest are removed and the `maxSize` newest remain; a
store of at most `maxSize` entries is left untouched (main.go
lines 119-132). -/
theorem enforceCapacity_keeps_newest (maxSize K : Nat) (store : Store)
    (hkeys : (store.map Prod.fst).Nodup)
    (hseen : (store.map fun e => e.2.lastSeen).Nodup)
    (hlen : store.length = maxSize + K) (hK : 0 < K) :
    maxInterfaces = 1000 ∧
    (enforceCapacity maxSize store).length = maxSize ∧
    List.Sublist (enforceCapacity maxSize store) store ∧
    (∀ d ∈ store, d.1 ∉ (enforceCapacity maxSize store).map Prod.fst →
      ∀ s ∈ enforceCapacity maxSize store, d.2.lastSeen < s.2.lastSeen) ∧
    (∀ store2 : Store, store2.length ≤ maxSize → enforceCapacity maxSize store2 = store2) := by
  have hbig : maxSize < store.length := by omega
  have hpd := enforceCapacity_perm_drop maxSize store hkeys hbig
  have hperm : List.Perm (List.insertionSort entryLE store) store :=
    List.perm_insertionSort entryLE store
  have hsorted : (List.insertionSort entryLE store).Sorted entryLE :=
    List.sorted_insertionSort entryLE store
  refine ⟨rfl, ?_, ?_, ?_, ?_⟩
  · rw [hpd.length_eq, List.length_drop, List.length_insertionSort]
    omega
  · rw [enforceCapacity, if_pos hbig]
    exact List.filter_sublist _
  · intro d hd hdout s hs
    have hsL : s ∈ (List.insertionSort entryLE store).drop (store.length - maxSize) :=
      hpd.mem_iff.mp hs
    have hdL : d ∈ List.insertionSort entryLE store := hperm.mem_iff.mpr hd
    have hdtake : d ∈ (List.insertionSort entryLE store).take (store.length - maxSize) := by
      have hsplit : d ∈ (List.insertionSort entryLE store).take (store.length - maxSize) ++
          (List.insertionSort entryLE store).drop (store.length - maxSize) := by
        rw [List.take_append_drop]
        exact hdL
      rcases List.mem_append.mp hsplit with h | h
      · exact h
      · exact absurd ((hpd.map Prod.fst).mem_iff.mpr (List.mem_map_of_mem Prod.fst h)) hdout
    have hle : entryLE d s := hsorted.rel_of_mem_take_of_mem_drop hdtake hsL
    have hne : d.2.lastSeen ≠ s.2.lastSeen := by
      intro heq
      have hsStore : s ∈ store := hperm.mem_iff.mp (List.mem_of_mem_drop hsL)
      have hds : d = s := List.inj_on_of_nodup_map hseen hd hsStore heq
      have hLkeys : ((List.insertionSort entryLE store).map Prod.fst).Nodup :=
        ((hperm.map Prod.fst).nodup_iff).mpr hkeys
      have hnd : (((List.insertionSort entryLE store).take (store.length - maxSize)).map
          Prod.fst ++ ((List.insertionSort entryLE store).drop (store.length - maxSize)).map
          Prod.fst).Nodup := by
        rw [← List.map_append, List.take_append_drop]
        exact hLkeys
      exact (List.nodup_append.mp hnd).2.2 (List.mem_map_of_mem Prod.fst hdtake)
        (hds ▸ List.mem_map_of_mem Prod.fst hsL)
    exact lt_of_le_of_ne hle hne
  · intro store2 hle2
    rw [enforceCapacity, if_neg (by omega)]

/-- Witness for `enforceCapacity_keeps_newest`: capacity 2 with 3 entries
whose `lastSeen` values are 3, 1, 2. -/
theorem enforceCapacity_keeps_newest_witness :
    maxInterfaces = 1000 ∧
    (enforceCapacity 2 storeC3).length = 2 ∧
    List.Sublist (enforceCapacity 2 storeC3) storeC3 ∧
    (∀ d ∈ storeC3, d.1 ∉ (enforceCapacity 2 storeC3).map Prod.fst →
      ∀ s ∈ enforceCapacity 2 storeC3, d.2.lastSeen < s.2.lastSeen) ∧
    (∀ store2 : Store, store2.length ≤ 2 → enforceCapacity 2 store2 = store2) :=
  enforceCapacity_keeps_newest 2 1 storeC3 (by decide) (by decide) (by decide) (by decide)

/-- **C6 counterexample.**  Two stores holding the same 1001 entries — two
of them tied at the oldest `lastSeen` — in different iteration orders: the
code's capacity enforcement (capacity `maxInterfaces`) evicts the entry
named `a` from one and keeps it in the other, so the evicted set depends
on the (randomized) Go map iteration order. -/
theorem eviction_tie_order_dependent_cex :
    List.Perm storeC6a storeC6b ∧
    ("a", sampleAt 5) ∈ enforceCapacity maxInterfaces storeC6b ∧
    ("a", sampleAt 5) ∉ enforceCapacity maxInterfaces storeC6a :=
  ⟨List.Perm.swap _ _ _,
   by set_option maxRecDepth 1000000 in decide,
   by set_option maxRecDepth 1000000 in decide⟩

/-- **C6 (amended).**  Capacity enforcement is deterministic only up to
ties: over stores holding the same set of entries with pairwise distinct
`lastSeen` timestamps (and distinct names), any two iteration orders evict
the same set of entries.  With ties in `lastSeen` the evicted set can
depend on the iteration order (see the counterexample). -/
theorem eviction_deterministic_on_distinct_lastSeen (maxSize : Nat) (s1 s2 : Store)
    (hperm : List.Perm s1 s2)
    (hkeys : (s1.map Prod.fst).Nodup)
    (hseen : (s1.map fun e => e.2.lastSeen).Nodup) :
    List.Perm (enforceCapacity maxSize s1) (enforceCapacity maxSize s2) := by
  by_cases hbig : maxSize < s1.length
  case neg =>
    rw [enforceCapacity, if_neg hbig, enforceCapacity,
      if_neg (by rw [← hperm.length_eq]; exact hbig)]
    exact hperm
  case pos =>
    have hbig2 : maxSize < s2.length := by rw [← hperm.length_eq]; exact hbig
    have hkeys2 : (s2.map Prod.fst).Nodup := ((hperm.map Prod.fst).nodup_iff).mp hkeys
    have hseen2 : (s2.map fun e => e.2.lastSeen).Nodup :=
      ((hperm.map fun e => e.2.lastSeen).nodup_iff).mp hseen
    have h1 := enforceCapacity_perm_drop maxSize s1 hkeys hbig
    have h2 := enforceCapacity_perm_drop maxSize s2 hkeys2 hbig2
    have hp1 : List.Perm (List.insertionSort entryLE s1) s1 :=
      List.perm_insertionSort entryLE s1
    have hp2 : List.Perm (List.insertionSort entryLE s2) s2 :=
      List.perm_insertionSort entryLE s2
    have hps : List.Perm (List.insertionSort entryLE s1) (List.insertionSort entryLE s2) :=
      hp1.trans (hperm.trans hp2.symm)
    have hne1 : (List.insertionSort entryLE s1).Pairwise
        (fun a b => a.2.lastSeen ≠ b.2.lastSeen) := by
      have hnd : ((List.insertionSort entryLE s1).map fun e => e.2.lastSeen).Nodup :=
        ((hp1.map fun e => e.2.lastSeen).nodup_iff).mpr hseen
      exact List.pairwise_map.mp hnd
    have hne2 : (List.insertionSort entryLE s2).Pairwise
        (fun a b => a.2.lastSeen ≠ b.2.lastSeen) := by
      have hnd : ((List.insertionSort entryLE s2).map fun e => e.2.lastSeen).Nodup :=
        ((hp2.map fun e => e.2.lastSeen).nodup_iff).mpr hseen2
      exact List.pairwise_map.mp hnd
    have hstrict1 : (List.insertionSort entryLE s1).Pairwise
        (fun a b => a.2.lastSeen < b.2.lastSeen) :=
      ((List.sorted_insertionSort entryLE s1).and hne1).imp fun h => lt_of_le_of_ne h.1 h.2
    have hstrict2 : (List.insertionSort entryLE s2).Pairwise
        (fun a b => a.2.lastSeen < b.2.lastSeen) :=
      ((List.sorted_insertionSort entryLE s2).and hne2).imp fun h => lt_of_le_of_ne h.1 h.2
    haveI : IsAntisymm (String × InterfaceStats) (fun a b => a.2.lastSeen < b.2.lastSeen) :=
      ⟨fun a b hab hba => absurd hba (not_lt.mpr (le_of_lt hab))⟩
    have hsortEq : List.insertionSort entryLE s1 = List.insertionSort entryLE s2 :=
      List.eq_of_perm_of_sorted hps hstrict1 hstrict2
    have hdropEq : (List.insertionSort entryLE s1).drop (s1.length - maxSize) =
        (List.insertionSort entryLE s2).drop (s2.length - maxSize) := by
      rw [hsortEq, hperm.length_eq]
    refine h1.trans ?_
    rw [hdropEq]
    exact h2.symm

/-- Witness for `eviction_deterministic_on_distinct_lastSeen`: the two
orders of a two-entry store with distinct `lastSeen`, capacity 1. -/
theorem eviction_deterministic_on_distinct_lastSeen_witness :
    List.Perm (enforceCapacity 1 [("a", sampleAt 1), ("b", sampleAt 2)])
      (enforceCapacity 1 [("b", sampleAt 2), ("a", sampleAt 1)]) :=
  eviction_deterministic_on_distinct_lastSeen 1 _ _ (List.Perm.swap _ _ _)
    (by decide) (by decide)

/-- **C8.**  The allowlist check: an empty allowlist string admits every
request; a non-empty allowlist admits exactly the requests whose source IP
(the host part when the address carries a port, the whole string
otherwise) equals some trimmed allowlist entry.  In particular, with
allowlist `"10.0.0.1"` a request from `10.0.0.1` is admitted with or
without a port suffix and a request from `10.0.0.2` is denied
(main.go lines 288-307). -/
theorem isIPAllowed_spec (allowedIPs remoteAddr : String) :
    (allowedIPs = "" → isIPAllowed allowedIPs remoteAddr = true) ∧
    (allowedIPs ≠ "" →
      (isIPAllowed allowedIPs remoteAddr = true ↔
        extractIP remoteAddr ∈ allowEntries allowedIPs)) ∧
    isIPAllowed "10.0.0.1" "10.0.0.1" = true ∧
    isIPAllowed "10.0.0.1" "10.0.0.1:9100" = true ∧
    isIPAllowed "10.0.0.1" "10.0.0.2" = false := by
  refine ⟨fun h => by simp [isIPAllowed, h], fun h => ?_, by decide, by decide, by decide⟩
  simp only [isIPAllowed, if_neg h, List.any_eq_true, beq_iff_eq]
  exact ⟨fun ⟨x, hx, he⟩ => he ▸ hx, fun hx => ⟨_, hx, rfl⟩⟩

/-- Witness for `isIPAllowed_spec` at the allowlist `"10.0.0.1"` and the
denied caller `10.0.0.2`. -/
theorem isIPAllowed_spec_witness :
    isIPAllowed "10.0.0.1" "10.0.0.2" = false ∧
    (isIPAllowed "10.0.0.1" "10.0.0.2" = true ↔
      extractIP "10.0.0.2" ∈ allowEntries "10.0.0.1") :=
  ⟨(isIPAllowed_spec "10.0.0.1" "10.0.0.2").2.2.2.2,
   (isIPAllowed_spec "10.0.0.1" "10.0.0.2").2.1 (by decide)⟩

end NetSpeedExporter
